import Mathlib

/-!
Verification of the Expressify examples repository.

The development shallowly embeds the request-dispatch code of
`src/examples/03-middleware/simple_middleware.py`,
`src/examples/03-middleware/middleware_utils.py`,
`src/examples/09-sessions-cookies/app.py` and the path / query-string
helpers of the Python standard library those files call
(`os.path.join`, `os.path.normpath`, `urllib.parse.parse_qs`).
All definitions come first and mirror the Python source; the theorems
about them follow.
-/

/-! ## Python dict as an insertion-ordered association list

Python dicts preserve insertion order; assigning to an existing key
replaces the value in place, assigning to a new key appends. -/

/-- Python `d.get(k)`: value of the first (and only) entry with key `k`. -/
def dictGet : List (String × String) → String → Option String
  | [], _ => none
  | (k0, v0) :: rest, k => if k0 == k then some v0 else dictGet rest k

/-- Python `d[k] = v`: replace in place if the key exists, else append. -/
def dictSet : List (String × String) → String → String → List (String × String)
  | [], k, v => [(k, v)]
  | (k0, v0) :: rest, k, v =>
    if k0 == k then (k0, v) :: rest else (k0, v0) :: dictSet rest k v

/-! ## The Response object of `simple_middleware.py` (lines 146-184)

`Response` holds a mutable `status_code` and `headers` dict.  `send`
writes the status line, the headers and the body to the transport at
the moment it is called; we record each such flush on a `wire` list
(the transport output), in order.  `status` and `set_header` mutate the
accumulator and return `self`; they have no failure path. -/

/-- One response flushed to the transport by `Response.send`:
the status code, headers and body bytes written at that moment. -/
structure Flush where
  status : Nat
  headers : List (String × String)
  body : String
deriving DecidableEq, Repr

/-- The `Response` object: mutable status/header accumulator plus the
transcript of everything already flushed to the transport. -/
structure Res where
  status_code : Nat
  headers : List (String × String)
  wire : List Flush
deriving DecidableEq, Repr

/-- A fresh `Response` (`__init__`): status 200, Content-Type text/html. -/
def initRes : Res := ⟨200, [("Content-Type", "text/html")], []⟩

/-- The observable response-mutating calls a chain element makes
(`Response.status`, `Response.set_header`, `Response.send`,
`Response.json`). -/
inductive ResOp where
  | setStatus (code : Nat)
  | setHeader (nm val : String)
  | sendBody (content : String)
  | jsonBody (content : String)
deriving DecidableEq, Repr

/-- Effect of one `Response` method call, per the source:
`status` sets `status_code`; `set_header` assigns into the headers
dict; `send` flushes current status, headers and the body to the
transport; `json` sets Content-Type to application/json and then
sends the serialized body. -/
def applyOp (r : Res) : ResOp → Res
  | .setStatus c => { r with status_code := c }
  | .setHeader nm v => { r with headers := dictSet r.headers nm v }
  | .sendBody s => { r with wire := r.wire ++ [⟨r.status_code, r.headers, s⟩] }
  | .jsonBody s =>
    let r' := { r with headers := dictSet r.headers "Content-Type" "application/json" }
    { r' with wire := r'.wire ++ [⟨r'.status_code, r'.headers, s⟩] }

/-- A sequence of `Response` method calls, applied left to right. -/
def applyOps (r : Res) (ops : List ResOp) : Res := ops.foldl applyOp r

/-- The body produced by `json.dumps` on the two-key error dicts used
throughout the source (assumes the interpolated strings need no JSON
escaping, which holds for every literal in the repository). -/
def jsonErrorBody (err msg : String) : String :=
  "\x7b\"error\": \"" ++ err ++ "\", \"message\": \"" ++ msg ++ "\"\x7d"

/-! ## The middleware chain of `simple_middleware.py` (lines 367-396)

`process_request` builds `middleware_chain` and runs
`execute_middleware(index)`: element `index` is called with a
continuation `lambda: execute_middleware(index + 1)`; past the end the
engine sends the default 404 JSON response.  `do_GET` and friends wrap
`process_request` in try/except and hand any exception to
`handle_error` (lines 325-344), which writes a 500 JSON response.

A chain element is a Python function classified by its observable
behaviour towards the continuation: it either returns without calling
`next` after some `Response` calls (`stop`; e.g. `auth_middleware` on
a failed check, `routes_middleware` on a matched route), calls `next`
exactly once between two batches of `Response` calls (`proceedWith`;
e.g. `logger_middleware`, every pass-through branch), raises after
some `Response` calls (`throws`), or is the `error_handler` wrapper of
`middleware_utils.py` lines 323-356 that runs `next` inside
try/except (`errorCatch`).  Every middleware in the repository calls
`next` at most once, so these shapes cover them all. -/

inductive Mw where
  | stop (ops : List ResOp)
  | proceedWith (pre post : List ResOp)
  | throws (pre : List ResOp) (msg : String)
  | errorCatch
deriving DecidableEq, Repr

/-- Body of the default 404 response sent when the chain is exhausted,
per `execute_middleware` (lines 386-390). -/
def body404 (method path : String) : String :=
  jsonErrorBody "Not Found" ("No route found for " ++ method ++ " " ++ path)

/-- End of chain: `res.status(404).json(\x7b...\x7d)` (lines 387-390). -/
def notFound404 (method path : String) (r : Res) : Res :=
  applyOps r [ResOp.setStatus 404, ResOp.jsonBody (body404 method path)]

/-- The response produced by `middleware_utils.error_handler` when it
catches an exception: `res.status(500).json(...)` with the error type
name and message (string exceptions have no `status_code` attribute,
so `getattr(e, "status_code", 500)` yields 500). -/
def errorCatchRes (msg : String) (r : Res) : Res :=
  applyOps r [ResOp.setStatus 500, ResOp.jsonBody (jsonErrorBody "Exception" msg)]

/-- Function `execute_middleware`: run the chain from the front.  A `stop`
element returns without invoking the continuation, so nothing after it
runs; a `proceedWith` element runs its `pre` calls, invokes the
continuation (the rest of the chain), and runs its `post` calls after
the continuation returns; a raised exception propagates out of every
`proceedWith` frame (the source has no try/except inside
`execute_middleware`) unless an `errorCatch` element is in front of
it; an exhausted chain sends the default 404. -/
def executeMw (method path : String) : List Mw → Res → Except (String × Res) Res
  | [], r => .ok (notFound404 method path r)
  | Mw.stop ops :: _, r => .ok (applyOps r ops)
  | Mw.proceedWith pre post :: rest, r =>
    match executeMw method path rest (applyOps r pre) with
    | .ok r' => .ok (applyOps r' post)
    | .error e => .error e
  | Mw.throws pre msg :: _, r => .error (msg, applyOps r pre)
  | Mw.errorCatch :: rest, r =>
    match executeMw method path rest r with
    | .ok r' => .ok r'
    | .error (msg, r') => .ok (errorCatchRes msg r')

/-- Methods `do_GET` / `do_POST` + `handle_error` (lines 325-351): run the
chain; an exception reaching the top frame is converted into a 500
JSON response written to the transport. -/
def process_request (method path : String) (chain : List Mw) (r : Res) : Res :=
  match executeMw method path chain r with
  | .ok r' => r'
  | .error (msg, re) =>
    { re with wire := re.wire ++
        [⟨500, [("Content-Type", "application/json")], jsonErrorBody "Internal Server Error" msg⟩] }

/-- Function `auth_middleware` (lines 206-229): on a path under `/protected`
it stops with 401 when the `x-api-key` header is missing (or empty:
Python truthiness), stops with 403 when it does not equal `abc123`,
and otherwise calls `next()`; on other paths it calls `next()`. -/
def auth_middleware (headers : List (String × String)) (path : String) : Mw :=
  if List.isPrefixOf "/protected".data path.data then
    match dictGet headers "x-api-key" with
    | none => Mw.stop [ResOp.setStatus 401,
        ResOp.jsonBody (jsonErrorBody "Authentication required"
          "Missing API key. Please provide X-API-Key header.")]
    | some k =>
      if k = "" then Mw.stop [ResOp.setStatus 401,
        ResOp.jsonBody (jsonErrorBody "Authentication required"
          "Missing API key. Please provide X-API-Key header.")]
      else if k ≠ "abc123" then Mw.stop [ResOp.setStatus 403,
        ResOp.jsonBody (jsonErrorBody "Access denied" "Invalid API key")]
      else Mw.proceedWith [] []
  else Mw.proceedWith [] []

/-- True for the `Response` calls that flush to the transport. -/
def isSendOp : ResOp → Bool
  | .sendBody _ => true
  | .jsonBody _ => true
  | _ => false

/-- A batch of `Response` calls that never flushes. -/
def noSendOps (ops : List ResOp) : Bool := ops.all (fun op => !isSendOp op)

/-- A chain element that invokes its continuation. -/
def isProceed : Mw → Bool
  | .proceedWith _ _ => true
  | _ => false

/-- A pass-through element: calls `next` once and never flushes. -/
def passNoSend : Mw → Bool
  | .proceedWith pre post => noSendOps pre && noSendOps post
  | _ => false

/-- How many chain elements execute (are entered) during dispatch:
an element that never invokes its continuation is the last to run. -/
def executedCount : List Mw → Nat
  | [] => 0
  | Mw.proceedWith _ _ :: rest => 1 + executedCount rest
  | Mw.errorCatch :: rest => 1 + executedCount rest
  | _ :: _ => 1

/-- The `pre` phases of a run of pass-through elements, applied in
chain order (this is the state the continuation of the last of them
observes). -/
def applyPres (l : List Mw) (r : Res) : Res :=
  l.foldl (fun acc m => match m with
    | Mw.proceedWith pre _ => applyOps acc pre
    | _ => acc) r

/-- The `post` phases of a run of pass-through elements, applied in
reverse chain order (innermost continuation returns first). -/
def applyPosts (l : List Mw) (r : Res) : Res :=
  l.foldr (fun m acc => match m with
    | Mw.proceedWith _ post => applyOps acc post
    | _ => acc) r

/-- Method `Response.status` as an `Except`-valued operation.  The source
method (lines 152-154) assigns `status_code` and returns `self`; it
has no failure path (no `AlreadySentError` exists anywhere in the
repository), so the embedding is always `ok`. -/
def Response_status (r : Res) (code : Nat) : Except String Res :=
  Except.ok (applyOp r (ResOp.setStatus code))

/-- Method `Response.set_header` as an `Except`-valued operation.  The source
method (lines 156-158) assigns into the headers dict and returns
`self`; it has no failure path. -/
def Response_set_header (r : Res) (nm v : String) : Except String Res :=
  Except.ok (applyOp r (ResOp.setHeader nm v))

/-! ## POSIX path functions (`os.path.join`, `os.path.normpath`,
`os.path.abspath`) as used by the static-file middlewares

Implemented over the character list of the string, mirroring the
CPython `posixpath` source. -/

/-- Python `str.split(sep)` for a one-character separator: keeps empty
pieces, yields one (possibly empty) piece when the separator is
absent. -/
def splitOnChar (sep : Char) : List Char → List (List Char)
  | [] => [[]]
  | c :: rest =>
    let r := splitOnChar sep rest
    if c = sep then [] :: r
    else match r with
      | h :: t => (c :: h) :: t
      | [] => [[c]]

/-- Python `posixpath.join(a, b)`: an absolute `b` discards `a`; otherwise
the separator is inserted unless `a` is empty or already ends in
one. -/
def pyJoinL (a b : List Char) : List Char :=
  if b.head? = some '/' then b
  else if a = [] then b
  else if a.getLast? = some '/' then a ++ b
  else a ++ '/' :: b

/-- Python `os.path.join` on strings. -/
def pyJoin (a b : String) : String := ⟨pyJoinL a.data b.data⟩

/-- The component loop of `posixpath.normpath`: drop empty and `.`
components; `..` pops the previous component, except that it is kept
when the path is relative and there is nothing to pop, or when the
previous component is itself a kept `..`; on an absolute path a
leading `..` is dropped. -/
def normComps (isAbs : Bool) : List (List Char) → List (List Char) → List (List Char)
  | acc, [] => acc.reverse
  | acc, c :: rest =>
    if c = [] ∨ c = ['.'] then normComps isAbs acc rest
    else if c ≠ ['.', '.'] then normComps isAbs (c :: acc) rest
    else match acc with
      | [] => if isAbs then normComps isAbs [] rest else normComps isAbs [c] rest
      | top :: acctl =>
        if top = ['.', '.'] then normComps isAbs (c :: acc) rest
        else normComps isAbs acctl rest

/-- Python `"/".join(comps)`. -/
def joinSlash : List (List Char) → List Char
  | [] => []
  | [c] => c
  | c :: rest => c ++ '/' :: joinSlash rest

/-- Python `posixpath.normpath` on the character list: records the number of
leading slashes to restore (two are preserved verbatim, POSIX rule),
normalizes the components, and yields `.` for an empty result. -/
def normpathL (p : List Char) : List Char :=
  let slashes : Nat :=
    if p.take 1 = ['/'] then
      (if p.take 2 = ['/', '/'] ∧ p.take 3 ≠ ['/', '/', '/'] then 2 else 1)
    else 0
  let comps := normComps (0 < slashes) [] (splitOnChar '/' p)
  let body := List.replicate slashes '/' ++ joinSlash comps
  if body = [] then ['.'] else body

/-- Python `os.path.normpath` on strings. -/
def normpath (p : String) : String := ⟨normpathL p.data⟩

/-- Python `os.path.abspath`: `normpath(join(getcwd(), path))`, with the
working directory passed explicitly. -/
def abspath (cwd p : String) : String := normpath (pyJoin cwd p)

/-- Python `s.startswith(pre)`. -/
def startsWithPy (s pre : String) : Bool := List.isPrefixOf pre.data s.data

/-- Outcome of a static-file middleware on one request: pass to the
next element, reject with the 403 JSON, or serve the file at the
given path (read it and send 200).  (Serving and the read-error 500 are
I/O; the decision is what the claims are about.) -/
inductive SFDecision where
  | passNext
  | forbidden
  | serve (filePath : String)
deriving DecidableEq, Repr

/-- Function `middleware_utils.static_files(directory)` (lines 168-212): on a
GET request whose path (query stripped) starts with `/static/`, build
`file_path = os.path.join(directory, path[8:])`, normalize it, and
reject with 403 unless the normalized path starts (as a string) with
`os.path.abspath(directory)`; then pass on when the file does not
exist, else serve it.  The filesystem is abstracted as the
`existsFile` oracle (`os.path.exists and os.path.isfile`). -/
def static_files (directory cwd : String) (existsFile : String → Bool)
    (method reqPath : String) : SFDecision :=
  if method ≠ "GET" then .passNext
  else
    let path : String := ⟨(splitOnChar '?' reqPath.data).headD []⟩
    if ¬ startsWithPy path "/static/" then .passNext
    else
      let file_path := pyJoin directory ⟨path.data.drop 8⟩
      let norm_path := normpath file_path
      if ¬ startsWithPy norm_path (abspath cwd directory) then .forbidden
      else if ¬ existsFile file_path then .passNext
      else .serve file_path

/-- Function `static_files_middleware` of `simple_middleware.py` (lines
231-275): on GET, the root path serves `public/index.html`; a path
under `/public/` serves `os.path.join(os.getcwd(), req.path[1:])`
whenever that file exists — with no traversal check of any kind (the
function has no 403 branch); anything else passes through. -/
def static_files_middleware (cwd : String) (existsFile : String → Bool)
    (method reqPath : String) : SFDecision :=
  if method ≠ "GET" then .passNext
  else if reqPath = "/" then
    let fp := pyJoin "public" "index.html"
    if existsFile fp then .serve fp else .passNext
  else if startsWithPy reqPath "/public/" then
    let fp := pyJoin cwd ⟨reqPath.data.drop 1⟩
    if existsFile fp then .serve fp else .passNext
  else .passNext

/-- The traversal property of the spec: a target path (fully resolved
against the working directory) stays inside the configured root iff
it equals the root or extends it at a path-component boundary. -/
def insideRoot (root target : String) : Bool :=
  target == root || List.isPrefixOf (root.data ++ ['/']) target.data

/-! ## `urllib.parse.parse_qs` and the query mapping of
`Request.__init__` (`simple_middleware.py` lines 126-128)

`self.query = \x7bk: v[0] for k, v in parse_qs(query_string).items()\x7d`:
`parse_qs` groups the values of each key in order of appearance, and
the comprehension keeps `v[0]`, the FIRST value. -/

/-- One hex digit, as accepted by `urllib.parse.unquote`. -/
def hexDigit (c : Char) : Option Nat :=
  if '0' ≤ c ∧ c ≤ '9' then some (c.toNat - 48)
  else if 'a' ≤ c ∧ c ≤ 'f' then some (c.toNat - 87)
  else if 'A' ≤ c ∧ c ≤ 'F' then some (c.toNat - 55)
  else none

/-- Python `urllib.parse.unquote_plus`: `+` becomes a space, `%XY` with two
hex digits becomes the byte `0xXY` (single-byte model: adequate for
the ASCII data in the repository), an invalid escape is kept
verbatim. -/
def unquotePlusL : List Char → List Char
  | [] => []
  | '+' :: rest => ' ' :: unquotePlusL rest
  | '%' :: a :: b :: rest =>
    match hexDigit a, hexDigit b with
    | some x, some y => Char.ofNat (16 * x + y) :: unquotePlusL rest
    | _, _ => '%' :: unquotePlusL (a :: b :: rest)
  | c :: rest => c :: unquotePlusL rest

/-- Python `s.split(sep, 1)` restricted to the case used by
`parse_qsl`: split at the first occurrence only, `none` when the
separator does not occur. -/
def splitEq1 : List Char → Option (List Char × List Char)
  | [] => none
  | '=' :: rest => some ([], rest)
  | c :: rest => (splitEq1 rest).map (fun p => (c :: p.1, p.2))

/-- Python `urllib.parse.parse_qsl(qs)` with the default
`keep_blank_values=False`: split on `&`; skip empty pieces, pieces
with no `=`, and pieces whose value part is empty; unquote name and
value. -/
def parse_qsl (qs : String) : List (String × String) :=
  (splitOnChar '&' qs.data).filterMap fun nv =>
    if nv = [] then none
    else match splitEq1 nv with
      | none => none
      | some (n, v) =>
        if v = [] then none
        else some (⟨unquotePlusL n⟩, ⟨unquotePlusL v⟩)

/-- The dict-building step of `parse_qs`: append the value to the
list of an existing key, else add a new key at the end (Python dict
insertion order). -/
def addVal (d : List (String × List String)) (k v : String) : List (String × List String) :=
  match d with
  | [] => [(k, [v])]
  | (k0, vs) :: rest =>
    if k0 == k then (k0, vs ++ [v]) :: rest else (k0, vs) :: addVal rest k v

/-- Python `urllib.parse.parse_qs(qs)` as the loop over `parse_qsl`. -/
def parse_qs (l : List (String × String)) : List (String × List String) :=
  l.foldl (fun d p => addVal d p.1 p.2) []

/-- The query mapping built by `Request.__init__`:
`\x7bk: v[0] for k, v in parse_qs(query_string).items()\x7d`. -/
def request_query (qs : String) : List (String × String) :=
  (parse_qs (parse_qsl qs)).map (fun p => (p.1, p.2.headD ""))

/-- Lookup in the grouped dict of `parse_qs`. -/
def dGetG : List (String × List String) → String → Option (List String)
  | [], _ => none
  | (k0, vs) :: rest, k => if k0 == k then some vs else dGetG rest k

/-- All values carried by a key in a pair list, in order. -/
def valuesOf (k : String) (l : List (String × String)) : List String :=
  (l.filter (fun p => p.1 == k)).map (fun p => p.2)

/-! ## The header mapping of `Request.__init__`
(`simple_middleware.py` lines 115-121)

`self.headers = \x7bk.lower(): v for k, v in handler.headers.items()\x7d`:
keys are lowercased once at construction; lookups afterwards are plain
(case-sensitive) dict lookups. -/

/-- Python `str.lower()` (ASCII model, which covers every header name
in the repository). -/
def pyLower (s : String) : String := ⟨s.data.map Char.toLower⟩

/-- The header dict built by `Request.__init__`: a dict comprehension
over the wire headers with lowercased keys (a later duplicate
overwrites an earlier one, Python dict semantics). -/
def request_headers (wire : List (String × String)) : List (String × String) :=
  wire.foldl (fun acc p => dictSet acc (pyLower p.1) p.2) []

/-! ## Sessions (`examples/09-sessions-cookies/app.py`)

`get_session` (lines 103-122) and `session_middleware` (lines
159-176).  Timestamps are modelled as integers; `datetime.now() >
expires_at` becomes `expires_at < now`. -/

/-- One entry of `sessions.json` (the fields `get_session` reads). -/
structure Session where
  id : String
  user_id : String
  expires_at : Int
deriving DecidableEq, Repr

/-- One entry of `users.json` (the fields the lookup reads). -/
structure User where
  id : String
  username : String
  password : String
  name : String
  email : String
deriving DecidableEq, Repr

/-- The user object returned to the request: a copy without the
password (`get_user_by_id`, lines 124-135). -/
structure PublicUser where
  id : String
  username : String
  name : String
  email : String
deriving DecidableEq, Repr

/-- Python `user_copy = user.copy(); del user_copy['password']`. -/
def strip_password (u : User) : PublicUser := ⟨u.id, u.username, u.name, u.email⟩

/-- Function `get_user_by_id`: first user with the id, password removed. -/
def get_user_by_id (users : List User) (uid : String) : Option PublicUser :=
  (users.find? (fun u => u.id == uid)).map strip_password

/-- Function `get_session(session_id)` (lines 103-122): a falsy id (absent
cookie gives `None`, and the empty string is also falsy) yields no
session; an id not present in the store yields no session; a found
but expired session is removed from the store and yields no session;
otherwise the session is returned.  The updated store is returned
alongside (the source persists it with `save_sessions`). -/
def get_session (now : Int) (sessions : List Session) (session_id : Option String) :
    Option Session × List Session :=
  match session_id with
  | none => (none, sessions)
  | some sid =>
    if sid = "" then (none, sessions)
    else match sessions.find? (fun s => s.id == sid) with
      | none => (none, sessions)
      | some s =>
        if s.expires_at < now then (none, sessions.filter (fun t => !(t.id == sid)))
        else (some s, sessions)

/-- What `session_middleware` leaves on the request object. -/
structure ReqView where
  session : Option Session
  user : Option PublicUser
deriving DecidableEq, Repr

/-- Function `session_middleware` (lines 159-176): read the `session_id`
cookie, load the session, and attach the session and its user (or
`None` for both) to the request; then call `next()`. -/
def session_middleware (now : Int) (sessions : List Session) (users : List User)
    (cookies : List (String × String)) : ReqView × List Session :=
  let sid := dictGet cookies "session_id"
  let res := get_session now sessions sid
  match res.1 with
  | some s => (⟨some s, get_user_by_id users s.user_id⟩, res.2)
  | none => (⟨none, none⟩, res.2)

/-! ## `middleware_utils.rate_limiter` (lines 275-320)

Per-client state: a list of admission timestamps (`clients` is a dict
keyed by client ip; each key evolves independently, so the embedding
tracks one client record).  On each request the record is pruned to
the window, the request is rejected with 429 when the pruned record
has reached `max_requests`, and otherwise the current time is
appended, the `X-RateLimit-*` headers are set and `next()` runs. -/

/-- What the middleware does with the request: reject with the 429
JSON, or set `X-RateLimit-Remaining` to `remaining` and call
`next()`. -/
inductive RLDecision where
  | tooMany
  | allowed (remaining : Nat)
deriving DecidableEq, Repr

/-- Whether `next()` was invoked. -/
def RLDecision.isAllowed : RLDecision → Bool
  | .tooMany => false
  | .allowed _ => true

/-- One request through `rate_limiter`: prune timestamps outside the
window (`now - t < window_seconds`), reject when the pruned record
already holds `max_requests` entries, else append `now` and compute
`remaining = max_requests - len(record)`. -/
def rate_limiter_step (max_requests window_seconds : Nat) (now : Int)
    (record : List Int) : List Int × RLDecision :=
  let pruned := record.filter (fun t => now - t < (window_seconds : Int))
  if max_requests ≤ pruned.length then (pruned, .tooMany)
  else (pruned ++ [now], .allowed (max_requests - (pruned ++ [now]).length))

/-- The per-client record after a sequence of requests at the given
times, starting from the empty record a new client gets. -/
def rate_limiter_run (max_requests window_seconds : Nat) (times : List Int) : List Int :=
  times.foldl (fun rec t => (rate_limiter_step max_requests window_seconds t rec).1) []

/-- The record and decision for a request at `now` after the earlier
request sequence `times`. -/
def rlAfter (max_requests window_seconds : Nat) (times : List Int) (now : Int) :
    List Int × RLDecision :=
  rate_limiter_step max_requests window_seconds now
    (rate_limiter_run max_requests window_seconds times)

/-! ## Theorems -/

theorem dictGet_dictSet (d : List (String × String)) (k v k' : String) :
    dictGet (dictSet d k v) k' = if k == k' then some v else dictGet d k' := by
  induction d with
  | nil => simp [dictSet, dictGet]
  | cons p rest ih =>
    obtain ⟨k0, v0⟩ := p
    by_cases h0 : k0 = k
    · subst h0
      by_cases h1 : k0 = k'
      · subst h1; simp [dictSet, dictGet]
      · simp [dictSet, dictGet, h1]
    · by_cases h1 : k0 = k'
      · subst h1
        have hkk : (k == k0) = false := by
          simp [beq_iff_eq]; intro he; exact h0 he.symm
        simp [dictSet, dictGet, h0, hkk, beq_iff_eq]
      · simp [dictSet, dictGet, h0, h1, ih]

example : dictGet (dictSet [("a", "1")] "a" "2") "a" = some "2" := by decide
example : (applyOps initRes [ResOp.sendBody "hi"]).wire =
    [⟨200, [("Content-Type", "text/html")], "hi"⟩] := by decide
example : normpath "/srv/public/../public2/a.txt" = "/srv/public2/a.txt" := by decide
example : normpath "a//b/./c/.." = "a/b" := by decide
example : normpath "/../x" = "/x" := by decide
example : normpath "" = "." := by decide
example : pyJoin "/srv/public" "/etc/passwd" = "/etc/passwd" := by decide

/-- Any `Response` calls that never flush leave the transport transcript
unchanged. -/
theorem applyOps_wire_noSend (ops : List ResOp) (r : Res) (h : noSendOps ops = true) :
    (applyOps r ops).wire = r.wire := by
  induction ops generalizing r with
  | nil => rfl
  | cons op rest ih =>
    have hall : (!isSendOp op) = true ∧ rest.all (fun o => !isSendOp o) = true := by
      simpa [noSendOps, List.all_cons, Bool.and_eq_true] using h
    have hop : isSendOp op = false := by
      have := hall.1; simpa using this
    have hrest : noSendOps rest = true := hall.2
    have hstep : (applyOp r op).wire = r.wire := by
      cases op with
      | setStatus c => rfl
      | setHeader nm v => rfl
      | sendBody s => simp [isSendOp] at hop
      | jsonBody s => simp [isSendOp] at hop
    calc (applyOps r (op :: rest)).wire
        = (applyOps (applyOp r op) rest).wire := rfl
      _ = (applyOp r op).wire := ih (applyOp r op) hrest
      _ = r.wire := hstep

/-- The transport transcript is append-only: no sequence of `Response`
calls ever removes or rewrites an already-flushed response. -/
theorem applyOps_wire_append (ops : List ResOp) (r : Res) :
    ∃ t, (applyOps r ops).wire = r.wire ++ t := by
  induction ops generalizing r with
  | nil => exact ⟨[], by simp [applyOps]⟩
  | cons op rest ih =>
    obtain ⟨t, ht⟩ := ih (applyOp r op)
    have hstep : ∃ u, (applyOp r op).wire = r.wire ++ u := by
      cases op with
      | setStatus c => exact ⟨[], by simp [applyOp]⟩
      | setHeader nm v => exact ⟨[], by simp [applyOp]⟩
      | sendBody s => exact ⟨[⟨r.status_code, r.headers, s⟩], rfl⟩
      | jsonBody s => exact ⟨[⟨r.status_code, dictSet r.headers "Content-Type" "application/json", s⟩], rfl⟩
    obtain ⟨u, hu⟩ := hstep
    exact ⟨u ++ t, by simp [applyOps] at ht ⊢; rw [ht, hu, List.append_assoc]⟩

/-- Claim C2: an exception raised by any chain element propagates
uncaught through every nested continuation frame to the dispatch
boundary (`do_GET` etc.), where `handle_error` converts it into
exactly one generic 500 JSON response appended to the transport
output; the failure never escapes the boundary unhandled. -/
theorem dispatch_boundary_error_to_500 (method path : String) (chain : List Mw)
    (r : Res) (msg : String) (re : Res)
    (h : executeMw method path chain r = Except.error (msg, re)) :
    process_request method path chain r =
      { re with wire := re.wire ++
          [⟨500, [("Content-Type", "application/json")],
            jsonErrorBody "Internal Server Error" msg⟩] } := by
  simp [process_request, h]

/-- Witness for C2: a chain whose only element raises produces the
single 500 response of `handle_error`. -/
theorem dispatch_boundary_error_to_500_witness :
    process_request "GET" "/" [Mw.throws [] "boom"] initRes =
      { initRes with wire := initRes.wire ++
          [⟨500, [("Content-Type", "application/json")],
            jsonErrorBody "Internal Server Error" "boom"⟩] } :=
  dispatch_boundary_error_to_500 "GET" "/" [Mw.throws [] "boom"] initRes "boom" initRes rfl

/-- Claim C5, counterexample: after `send` has flushed the body, a
further `status` call does not fail with `AlreadySentError` (or with
anything): it succeeds.  The claim "every subsequent mutation of the
response status or headers fails with AlreadySentError" is false on
the code. -/
theorem response_mutation_after_send_succeeds :
    (applyOp initRes (ResOp.sendBody "hello")).wire ≠ [] ∧
    Response_status (applyOp initRes (ResOp.sendBody "hello")) 500 =
      Except.ok (applyOp (applyOp initRes (ResOp.sendBody "hello")) (ResOp.setStatus 500)) ∧
    ∀ e, Response_status (applyOp initRes (ResOp.sendBody "hello")) 500 ≠ Except.error e := by
  refine ⟨by decide, rfl, ?_⟩
  intro e h
  simp [Response_status] at h

/-- Claim C5, amended: after the body has been flushed, mutations of
status and headers silently succeed on the in-memory object (the code
has no `AlreadySentError`), and no sequence of response operations
ever alters or removes a response already flushed to the transport. -/
theorem response_mutation_after_send_silent (r : Res) (c : Nat) (nm v : String)
    (ops : List ResOp) :
    Response_status r c = Except.ok { r with status_code := c } ∧
    Response_set_header r nm v = Except.ok { r with headers := dictSet r.headers nm v } ∧
    ∃ t, (applyOps r ops).wire = r.wire ++ t :=
  ⟨rfl, rfl, applyOps_wire_append ops r⟩

/-- Claim C6, counterexample: a middleware that calls `proceed` once
and sets a header after `proceed` returns, above a terminal handler
that sends the body, mutates the response object — but the response
already flushed to the client does not contain the header, because
`send` wrote it to the transport before `proceed` returned.  The
claim "that mutation is reflected in the final response sent to the
client" is false on the code. -/
theorem post_proceed_header_not_flushed :
    (process_request "GET" "/x"
        [Mw.proceedWith [] [ResOp.setHeader "X-After" "yes"],
         Mw.stop [ResOp.sendBody "hello"]] initRes).wire =
      [⟨200, [("Content-Type", "text/html")], "hello"⟩] ∧
    dictGet (process_request "GET" "/x"
        [Mw.proceedWith [] [ResOp.setHeader "X-After" "yes"],
         Mw.stop [ResOp.sendBody "hello"]] initRes).headers "X-After" = some "yes" ∧
    ∀ f ∈ (process_request "GET" "/x"
        [Mw.proceedWith [] [ResOp.setHeader "X-After" "yes"],
         Mw.stop [ResOp.sendBody "hello"]] initRes).wire,
      dictGet f.headers "X-After" = none := by
  refine ⟨by decide, by decide, ?_⟩
  decide

/-- Claim C6, amended: `proceed` returns control synchronously —
after the downstream part of the chain has fully run, the middleware
regains control and its post-`proceed` header mutation is applied to
the response object; but the mutation does not change the transport
output, so it reaches the client only if the flush happens after it
(a downstream `send` has already written the response). -/
theorem post_proceed_mutation_synchronous (method path : String) (pre : List ResOp)
    (n v : String) (rest : List Mw) (r r' : Res)
    (h : executeMw method path rest (applyOps r pre) = Except.ok r') :
    executeMw method path (Mw.proceedWith pre [ResOp.setHeader n v] :: rest) r =
      Except.ok { r' with headers := dictSet r'.headers n v } ∧
    ({ r' with headers := dictSet r'.headers n v } : Res).wire = r'.wire := by
  constructor
  · simp only [executeMw]
    rw [h]
    simp [applyOps, applyOp]
  · rfl

/-- Witness for C6 (amended): the concrete chain of the
counterexample, with the downstream result spelled out. -/
theorem post_proceed_mutation_synchronous_witness :
    executeMw "GET" "/x"
        (Mw.proceedWith [] [ResOp.setHeader "X-After" "yes"] ::
          [Mw.stop [ResOp.sendBody "hello"]]) initRes =
      Except.ok { (⟨200, [("Content-Type", "text/html")],
          [⟨200, [("Content-Type", "text/html")], "hello"⟩]⟩ : Res) with
        headers := dictSet (⟨200, [("Content-Type", "text/html")],
          [⟨200, [("Content-Type", "text/html")], "hello"⟩]⟩ : Res).headers "X-After" "yes" } ∧
    ({ (⟨200, [("Content-Type", "text/html")],
          [⟨200, [("Content-Type", "text/html")], "hello"⟩]⟩ : Res) with
        headers := dictSet (⟨200, [("Content-Type", "text/html")],
          [⟨200, [("Content-Type", "text/html")], "hello"⟩]⟩ : Res).headers "X-After" "yes" } : Res).wire =
      (⟨200, [("Content-Type", "text/html")],
          [⟨200, [("Content-Type", "text/html")], "hello"⟩]⟩ : Res).wire :=
  post_proceed_mutation_synchronous "GET" "/x" [] "X-After" "yes"
    [Mw.stop [ResOp.sendBody "hello"]] initRes
    ⟨200, [("Content-Type", "text/html")], [⟨200, [("Content-Type", "text/html")], "hello"⟩]⟩
    rfl

/-- Claim C3: if the elements in front of position `i` all invoke
their continuation and the element at position `i` returns without
calling `proceed`, then dispatch is completely independent of
everything behind position `i` (no later element, terminal handler
included, executes), exactly `i + 1` elements execute, and the result
is the response state accumulated up to that point (the stopping
element applied to the `pre` phases, wrapped by the returning `post`
phases). -/
theorem chain_stops_without_proceed (method path : String) (front : List Mw)
    (ops : List ResOp) (back back' : List Mw) (r : Res)
    (hf : ∀ m ∈ front, isProceed m = true) :
    executeMw method path (front ++ Mw.stop ops :: back) r =
      executeMw method path (front ++ Mw.stop ops :: back') r ∧
    executedCount (front ++ Mw.stop ops :: back) = front.length + 1 ∧
    executeMw method path (front ++ Mw.stop ops :: back) r =
      Except.ok (applyPosts front (applyOps (applyPres front r) ops)) := by
  induction front generalizing r with
  | nil =>
    refine ⟨rfl, rfl, ?_⟩
    simp [executeMw, applyPres, applyPosts]
  | cons m front' ih =>
    have hm : isProceed m = true := hf m (List.mem_cons_self m front')
    have hf' : ∀ m' ∈ front', isProceed m' = true :=
      fun m' hm' => hf m' (List.mem_cons_of_mem m hm')
    cases m with
    | stop o => simp [isProceed] at hm
    | throws p msg => simp [isProceed] at hm
    | errorCatch => simp [isProceed] at hm
    | proceedWith pre post =>
      obtain ⟨e1, e2, e3⟩ := ih (applyOps r pre) hf'
      have e3' : executeMw method path (front' ++ Mw.stop ops :: back') (applyOps r pre) =
          Except.ok (applyPosts front' (applyOps (applyPres front' (applyOps r pre)) ops)) :=
        e1.symm.trans e3
      refine ⟨?_, ?_, ?_⟩
      · simp only [List.cons_append, executeMw, List.append_eq]
        rw [e3, e3']
      · simp only [List.cons_append, executedCount, List.append_eq, e2, List.length_cons]
        omega
      · simp only [List.cons_append, executeMw, List.append_eq]
        rw [e3]
        simp [applyPres, applyPosts]

/-- Witness for C3: `auth_middleware` with a valid key proceeds; the
second element (`auth_middleware` with no key on a protected path)
stops with 401; a terminal handler behind it never runs and dispatch
does not depend on it. -/
theorem chain_stops_without_proceed_witness :
    (∀ m ∈ [auth_middleware [("x-api-key", "abc123")] "/protected"], isProceed m = true) ∧
    (executeMw "GET" "/protected"
        ([auth_middleware [("x-api-key", "abc123")] "/protected"] ++
          Mw.stop [ResOp.setStatus 401,
            ResOp.jsonBody (jsonErrorBody "Authentication required"
              "Missing API key. Please provide X-API-Key header.")] ::
          [Mw.stop [ResOp.sendBody "never"]]) initRes =
      executeMw "GET" "/protected"
        ([auth_middleware [("x-api-key", "abc123")] "/protected"] ++
          Mw.stop [ResOp.setStatus 401,
            ResOp.jsonBody (jsonErrorBody "Authentication required"
              "Missing API key. Please provide X-API-Key header.")] ::
          []) initRes ∧
    executedCount
        ([auth_middleware [("x-api-key", "abc123")] "/protected"] ++
          Mw.stop [ResOp.setStatus 401,
            ResOp.jsonBody (jsonErrorBody "Authentication required"
              "Missing API key. Please provide X-API-Key header.")] ::
          [Mw.stop [ResOp.sendBody "never"]]) =
      [auth_middleware [("x-api-key", "abc123")] "/protected"].length + 1 ∧
    executeMw "GET" "/protected"
        ([auth_middleware [("x-api-key", "abc123")] "/protected"] ++
          Mw.stop [ResOp.setStatus 401,
            ResOp.jsonBody (jsonErrorBody "Authentication required"
              "Missing API key. Please provide X-API-Key header.")] ::
          [Mw.stop [ResOp.sendBody "never"]]) initRes =
      Except.ok (applyPosts [auth_middleware [("x-api-key", "abc123")] "/protected"]
        (applyOps (applyPres [auth_middleware [("x-api-key", "abc123")] "/protected"] initRes)
          [ResOp.setStatus 401,
            ResOp.jsonBody (jsonErrorBody "Authentication required"
              "Missing API key. Please provide X-API-Key header.")]))) :=
  ⟨by decide,
   chain_stops_without_proceed "GET" "/protected"
     [auth_middleware [("x-api-key", "abc123")] "/protected"]
     [ResOp.setStatus 401,
       ResOp.jsonBody (jsonErrorBody "Authentication required"
         "Missing API key. Please provide X-API-Key header.")]
     [Mw.stop [ResOp.sendBody "never"]] [] initRes (by decide)⟩

/-- Exhausting a chain of pass-through elements reaches the default
404 of `execute_middleware`: the dispatch succeeds with exactly one
flushed response carrying status 404 and the "Not Found" JSON body,
appended to the prior transcript. -/
theorem executeMw_allPass (method path : String) (chain : List Mw) (r : Res)
    (hp : ∀ m ∈ chain, passNoSend m = true) :
    ∃ r' hs, executeMw method path chain r = Except.ok r' ∧
      r'.wire = r.wire ++ [⟨404, hs, body404 method path⟩] := by
  induction chain generalizing r with
  | nil =>
    refine ⟨notFound404 method path r,
      dictSet ({ r with status_code := 404 } : Res).headers "Content-Type" "application/json",
      rfl, ?_⟩
    simp [notFound404, applyOps, applyOp]
  | cons m rest ih =>
    have hm : passNoSend m = true := hp m (List.mem_cons_self m rest)
    have hrest : ∀ m' ∈ rest, passNoSend m' = true :=
      fun m' hm' => hp m' (List.mem_cons_of_mem m hm')
    cases m with
    | stop o => simp [passNoSend] at hm
    | throws p msg => simp [passNoSend] at hm
    | errorCatch => simp [passNoSend] at hm
    | proceedWith pre post =>
      have hpre : noSendOps pre = true := by
        have := hm; simp [passNoSend, Bool.and_eq_true] at this; exact this.1
      have hpost : noSendOps post = true := by
        have := hm; simp [passNoSend, Bool.and_eq_true] at this; exact this.2
      obtain ⟨r', hs, hok, hwire⟩ := ih (applyOps r pre) hrest
      refine ⟨applyOps r' post, hs, ?_, ?_⟩
      · simp only [executeMw]
        rw [hok]
      · rw [applyOps_wire_noSend post r' hpost, hwire,
          applyOps_wire_noSend pre r hpre]

/-- Claim C4: a request that no element of the chain handles (every
element passes through without flushing a response — no route and no
explicitly registered catch-all matched) makes the engine produce the
default 404 "not found" response as the single transport output. -/
theorem exhausted_chain_yields_404 (method path : String) (chain : List Mw) (r : Res)
    (hw : r.wire = []) (hp : ∀ m ∈ chain, passNoSend m = true) :
    ∃ hs, (process_request method path chain r).wire =
      [⟨404, hs, body404 method path⟩] := by
  obtain ⟨r', hs, hok, hwire⟩ := executeMw_allPass method path chain r hp
  refine ⟨hs, ?_⟩
  simp [process_request, hok, hwire, hw]

/-- Witness for C4: `auth_middleware` on an unprotected path passes
through, the chain ends, and the engine sends the 404 JSON. -/
theorem exhausted_chain_yields_404_witness :
    (initRes.wire = []) ∧
    (∀ m ∈ [auth_middleware [] "/about"], passNoSend m = true) ∧
    ∃ hs, (process_request "GET" "/about" [auth_middleware [] "/about"] initRes).wire =
      [⟨404, hs, body404 "GET" "/about"⟩] :=
  ⟨rfl, by decide,
   exhausted_chain_yields_404 "GET" "/about" [auth_middleware [] "/about"] initRes rfl (by decide)⟩

/-- Claim C1: the code violates the traversal requirement.  With root
`/srv/public`, the GET request `/static/../public2/a.txt` resolves to
`/srv/public2/a.txt` — outside the root — yet `static_files` serves
it, because the guard is a plain string-prefix test and
`"/srv/public2/a.txt"` starts with `"/srv/public"`.  And
`static_files_middleware` serves `/public/../secret.txt` (resolving
to `/srv/secret.txt`, outside `/srv/public`) because it has no check
at all. -/
theorem static_files_traversal_bug :
    (static_files "/srv/public" "/srv" (fun _ => true) "GET" "/static/../public2/a.txt" =
        SFDecision.serve "/srv/public/../public2/a.txt" ∧
      insideRoot (abspath "/srv" "/srv/public")
        (abspath "/srv" "/srv/public/../public2/a.txt") = false) ∧
    (static_files_middleware "/srv" (fun _ => true) "GET" "/public/../secret.txt" =
        SFDecision.serve "/srv/public/../secret.txt" ∧
      insideRoot (abspath "/srv" (pyJoin "/srv" "public"))
        (abspath "/srv" "/srv/public/../secret.txt") = false) := by
  refine ⟨⟨?_, ?_⟩, ?_, ?_⟩ <;> decide

theorem dGetG_addVal (d : List (String × List String)) (k v k' : String) :
    dGetG (addVal d k v) k' =
      if k = k' then
        match dGetG d k' with
        | some vs => some (vs ++ [v])
        | none => some [v]
      else dGetG d k' := by
  induction d with
  | nil =>
    by_cases h : k = k' <;> simp [addVal, dGetG, h, beq_iff_eq]
  | cons p rest ih =>
    obtain ⟨k0, vs0⟩ := p
    by_cases h0 : k0 = k
    · subst h0
      by_cases h1 : k0 = k' <;> simp [addVal, dGetG, h1, beq_iff_eq]
    · by_cases h1 : k0 = k'
      · subst h1
        have hkk : ¬ k = k0 := fun he => h0 he.symm
        simp [addVal, dGetG, h0, hkk, beq_iff_eq]
      · simp [addVal, dGetG, h0, h1, beq_iff_eq, ih]

theorem dGetG_parse_qs_fold (l : List (String × String))
    (d : List (String × List String)) (k : String) :
    dGetG (l.foldl (fun d p => addVal d p.1 p.2) d) k =
      match dGetG d k with
      | some vs => some (vs ++ valuesOf k l)
      | none => match valuesOf k l with
        | [] => none
        | w :: ws => some (w :: ws) := by
  induction l generalizing d with
  | nil =>
    cases h : dGetG d k <;> simp [valuesOf, h]
  | cons p rest ih =>
    obtain ⟨k1, v1⟩ := p
    have step : List.foldl (fun d p => addVal d p.1 p.2) d ((k1, v1) :: rest) =
        List.foldl (fun d p => addVal d p.1 p.2) (addVal d k1 v1) rest := rfl
    rw [step, ih]
    by_cases h1 : k1 = k
    · subst h1
      have hv : valuesOf k1 ((k1, v1) :: rest) = v1 :: valuesOf k1 rest := by
        simp [valuesOf]
      rw [dGetG_addVal, hv]
      simp only [if_pos rfl]
      cases h : dGetG d k1 <;> simp [h]
    · have hv : valuesOf k ((k1, v1) :: rest) = valuesOf k rest := by
        simp [valuesOf, h1]
      rw [dGetG_addVal, if_neg h1, hv]

theorem dictGet_map_headD (d : List (String × List String)) (k : String) :
    dictGet (d.map (fun p => (p.1, p.2.headD ""))) k =
      (dGetG d k).map (fun vs => vs.headD "") := by
  induction d with
  | nil => simp [dictGet, dGetG]
  | cons p rest ih =>
    obtain ⟨k0, vs0⟩ := p
    by_cases h : k0 = k <;> simp [dictGet, dGetG, h, beq_iff_eq] <;> simpa using ih

theorem find?_eq_head?_valuesOf (l : List (String × String)) (k : String) :
    (l.find? (fun p => p.1 == k)).map (fun p => p.2) = (valuesOf k l).head? := by
  induction l with
  | nil => simp [valuesOf]
  | cons p rest ih =>
    obtain ⟨k0, v0⟩ := p
    by_cases h : k0 = k
    · have hb : (k0 == k) = true := by simp [beq_iff_eq, h]
      simp [List.find?, hb, valuesOf, h]
    · have hb : (k0 == k) = false := by simp [beq_iff_eq, h]
      simp only [List.find?, hb, valuesOf, List.filter_cons]
      simpa [valuesOf, hb] using ih

/-- Claim C8, amended: for every query string and key, the parsed
query mapping binds the key to the FIRST value supplied for it in the
query string (there is no mechanism making a key multi-valued in this
mapping). -/
theorem query_first_value_wins (qs k : String) :
    dictGet (request_query qs) k =
      ((parse_qsl qs).find? (fun p => p.1 == k)).map (fun p => p.2) := by
  rw [find?_eq_head?_valuesOf]
  unfold request_query
  rw [dictGet_map_headD]
  unfold parse_qs
  rw [dGetG_parse_qs_fold]
  simp only [dGetG]
  cases h : valuesOf k (parse_qsl qs) with
  | nil => simp [h]
  | cons w ws => simp [h]

/-- Claim C8, counterexample: for the query string `a=1&a=2` the
parsed mapping binds `a` to the first value `1`, not (as the claim
states) to the last value `2`. -/
theorem query_last_value_counterexample :
    dictGet (request_query "a=1&a=2") "a" = some "1" ∧
    dictGet (request_query "a=1&a=2") "a" ≠ some "2" := by
  refine ⟨by decide, by decide⟩

theorem find?_append_pairs (f : String × String → Bool)
    (l1 l2 : List (String × String)) :
    (l1 ++ l2).find? f = match l1.find? f with
      | some x => some x
      | none => l2.find? f := by
  induction l1 with
  | nil => simp
  | cons a l ih =>
    by_cases h : f a = true
    · simp [List.find?, h]
    · have h' : f a = false := by simpa using h
      simp [List.find?, h', ih]

theorem dictGet_foldl_dictSet (l : List (String × String))
    (acc : List (String × String)) (k : String) :
    dictGet (l.foldl (fun m p => dictSet m p.1 p.2) acc) k =
      match l.reverse.find? (fun p => p.1 == k) with
      | some p => some p.2
      | none => dictGet acc k := by
  induction l generalizing acc with
  | nil => simp
  | cons p rest ih =>
    obtain ⟨k1, v1⟩ := p
    have step : List.foldl (fun m p => dictSet m p.1 p.2) acc ((k1, v1) :: rest) =
        List.foldl (fun m p => dictSet m p.1 p.2) (dictSet acc k1 v1) rest := rfl
    rw [step, ih, List.reverse_cons, find?_append_pairs]
    cases h : rest.reverse.find? (fun p => p.1 == k) with
    | some q => rfl
    | none =>
      by_cases hk : k1 = k
      · subst hk
        simp [dictGet_dictSet, List.find?]
      · have hb : (k1 == k) = false := by simp [beq_iff_eq, hk]
        have hb' : (k1 == k) = true → False := by simp [hb]
        simp [dictGet_dictSet, List.find?, hb, beq_iff_eq, hk]

/-- Claim C9, amended: the wire casing of header names is erased at
parse time — looking up a name in the Context header mapping returns
the value of the last wire header whose LOWERCASED name equals the
queried name exactly.  Lookups are therefore insensitive to the
casing the client used on the wire, but the lookup itself is a plain
case-sensitive dict access: only the lowercased spelling of a name
finds it. -/
theorem header_lookup_wire_casing (wire : List (String × String)) (k : String) :
    dictGet (request_headers wire) k =
      ((wire.map (fun p => (pyLower p.1, p.2))).reverse.find?
        (fun p => p.1 == k)).map (fun p => p.2) := by
  have hmap : request_headers wire =
      (wire.map (fun p => (pyLower p.1, p.2))).foldl (fun m p => dictSet m p.1 p.2) [] := by
    rw [List.foldl_map]
    rfl
  rw [hmap, dictGet_foldl_dictSet]
  cases h : (wire.map (fun p => (pyLower p.1, p.2))).reverse.find? (fun p => p.1 == k) with
  | some q => rfl
  | none => rfl

/-- Claim C9, counterexample: with the wire header `X-API-Key`, the
lookups `x-api-key` and `X-API-Key` — two names differing only in
letter case — do NOT retrieve the same value: the mapping stores
lowercased keys and its lookup is case-sensitive.  The claim as
stated is false on the code. -/
theorem header_lookup_case_counterexample :
    dictGet (request_headers [("X-API-Key", "abc123")]) "x-api-key" = some "abc123" ∧
    dictGet (request_headers [("X-API-Key", "abc123")]) "X-API-Key" = none := by
  refine ⟨by decide, by decide⟩

/-- Claim C7: an absent session cookie, an unknown session id and an
expired session id are treated identically by the session lookup —
each yields the same "no session" request state (`req.session` and
`req.user` both `None`), with no error raised (the lookup is a total
function) and no distinguishable outcome on the request. -/
theorem session_lookup_uniform_no_session (now : Int) (sessions : List Session)
    (users : List User) (cookies : List (String × String)) :
    (dictGet cookies "session_id" = none →
      (session_middleware now sessions users cookies).1 = ⟨none, none⟩) ∧
    (∀ sid, dictGet cookies "session_id" = some sid →
      sessions.find? (fun s => s.id == sid) = none →
      (session_middleware now sessions users cookies).1 = ⟨none, none⟩) ∧
    (∀ sid s, dictGet cookies "session_id" = some sid →
      sessions.find? (fun s => s.id == sid) = some s →
      s.expires_at < now →
      (session_middleware now sessions users cookies).1 = ⟨none, none⟩) := by
  refine ⟨?_, ?_, ?_⟩
  · intro h
    simp [session_middleware, h, get_session]
  · intro sid h hfind
    by_cases he : sid = ""
    · simp [session_middleware, h, get_session, he]
    · simp [session_middleware, h, get_session, he, hfind]
  · intro sid s h hfind hexp
    by_cases he : sid = ""
    · simp [session_middleware, h, get_session, he]
    · simp [session_middleware, h, get_session, he, hfind, hexp]

/-- Witness for C7: the three cases at concrete stores and cookies
all yield the identical "no session" request state. -/
theorem session_lookup_uniform_no_session_witness :
    (session_middleware 100 [⟨"s1", "u1", 500⟩] [] []).1 = ⟨none, none⟩ ∧
    (session_middleware 100 [⟨"s1", "u1", 500⟩] [] [("session_id", "zzz")]).1 = ⟨none, none⟩ ∧
    (session_middleware 100 [⟨"s1", "u1", 50⟩] [] [("session_id", "s1")]).1 = ⟨none, none⟩ :=
  ⟨(session_lookup_uniform_no_session 100 [⟨"s1", "u1", 500⟩] [] []).1 rfl,
   (session_lookup_uniform_no_session 100 [⟨"s1", "u1", 500⟩] [] [("session_id", "zzz")]).2.1
     "zzz" rfl (by decide),
   (session_lookup_uniform_no_session 100 [⟨"s1", "u1", 50⟩] [] [("session_id", "s1")]).2.2
     "s1" ⟨"s1", "u1", 50⟩ rfl (by decide) (by decide)⟩

theorem rate_limiter_step_length (max_requests window_seconds : Nat) (now : Int)
    (record : List Int) (h : record.length ≤ max_requests) :
    (rate_limiter_step max_requests window_seconds now record).1.length ≤ max_requests := by
  unfold rate_limiter_step
  have hp : (record.filter (fun t => now - t < (window_seconds : Int))).length ≤ record.length :=
    List.length_filter_le _ _
  by_cases hc : max_requests ≤ (record.filter (fun t => now - t < (window_seconds : Int))).length
  · simp only [hc, if_true]
    omega
  · simp only [hc, if_false, List.length_append, List.length_cons, List.length_nil]
    omega

theorem rate_limiter_run_length (max_requests window_seconds : Nat) (times : List Int) :
    (rate_limiter_run max_requests window_seconds times).length ≤ max_requests := by
  suffices h : ∀ (ts : List Int) (rec : List Int), rec.length ≤ max_requests →
      (ts.foldl (fun rec t => (rate_limiter_step max_requests window_seconds t rec).1) rec).length ≤
        max_requests by
    exact h times [] (by simp)
  intro ts
  induction ts with
  | nil => intro rec h; simpa using h
  | cons t rest ih =>
    intro rec h
    exact ih _ (rate_limiter_step_length max_requests window_seconds t rec h)

/-- Claim C10: for every request sequence from one client and a
further request at time `now` (with a positive window), the
per-client record holds at most `max_requests` entries, every entry
is a timestamp from the last `window_seconds` (strictly within the
window of `now`), `next` is invoked exactly when fewer than
`max_requests` admitted requests lie inside the window, the
`X-RateLimit-Remaining` value is `max_requests` minus the admitted
count now in the record, and a rejected request gets 429 while the
record is merely pruned, not extended. -/
theorem rate_limiter_invariants (max_requests window_seconds : Nat) (times : List Int)
    (now : Int) (hw : 0 < window_seconds) :
    (rlAfter max_requests window_seconds times now).1.length ≤ max_requests ∧
    (∀ t ∈ (rlAfter max_requests window_seconds times now).1,
      now - t < (window_seconds : Int)) ∧
    ((rlAfter max_requests window_seconds times now).2.isAllowed = true ↔
      ((rate_limiter_run max_requests window_seconds times).filter
        (fun t => now - t < (window_seconds : Int))).length < max_requests) ∧
    (∀ rem, (rlAfter max_requests window_seconds times now).2 = RLDecision.allowed rem →
      rem = max_requests - (rlAfter max_requests window_seconds times now).1.length) ∧
    ((rlAfter max_requests window_seconds times now).2 = RLDecision.tooMany →
      (rlAfter max_requests window_seconds times now).1 =
        (rate_limiter_run max_requests window_seconds times).filter
          (fun t => now - t < (window_seconds : Int))) := by
  have hlen := rate_limiter_run_length max_requests window_seconds times
  unfold rlAfter rate_limiter_step
  set rec := rate_limiter_run max_requests window_seconds times with hrec
  set pruned := rec.filter (fun t => now - t < (window_seconds : Int)) with hpruned
  have hple : pruned.length ≤ rec.length := List.length_filter_le _ _
  by_cases hc : max_requests ≤ pruned.length
  · simp only [hc, if_true]
    refine ⟨by omega, ?_, ?_, ?_, ?_⟩
    · intro t ht
      have := List.of_mem_filter ht
      simpa using this
    · simp [RLDecision.isAllowed]
      omega
    · intro rem h; cases h
    · intro _; trivial
  · simp only [hc, if_false]
    refine ⟨?_, ?_, ?_, ?_, ?_⟩
    · simp only [List.length_append, List.length_cons, List.length_nil]
      omega
    · intro t ht
      rcases List.mem_append.mp ht with hin | hin
      · have := List.of_mem_filter hin
        simpa using this
      · have : t = now := by simpa using hin
        subst this
        simp
        exact_mod_cast hw
    · simp [RLDecision.isAllowed]
      omega
    · intro rem h
      simp only [RLDecision.allowed.injEq] at h
      exact h.symm
    · intro h; cases h

/-- Witness for C10: two allowed requests, then rejections, at
concrete parameters. -/
theorem rate_limiter_invariants_witness :
    0 < 10 ∧
    ((rlAfter 2 10 [0, 1, 2] 3).1.length ≤ 2 ∧
     (∀ t ∈ (rlAfter 2 10 [0, 1, 2] 3).1, (3 : Int) - t < ((10 : Nat) : Int)) ∧
     ((rlAfter 2 10 [0, 1, 2] 3).2.isAllowed = true ↔
       ((rate_limiter_run 2 10 [0, 1, 2]).filter
         (fun t => (3 : Int) - t < ((10 : Nat) : Int))).length < 2) ∧
     (∀ rem, (rlAfter 2 10 [0, 1, 2] 3).2 = RLDecision.allowed rem →
       rem = 2 - (rlAfter 2 10 [0, 1, 2] 3).1.length) ∧
     ((rlAfter 2 10 [0, 1, 2] 3).2 = RLDecision.tooMany →
       (rlAfter 2 10 [0, 1, 2] 3).1 =
         (rate_limiter_run 2 10 [0, 1, 2]).filter
           (fun t => (3 : Int) - t < ((10 : Nat) : Int)))) :=
  ⟨by decide, rate_limiter_invariants 2 10 [0, 1, 2] 3 (by decide)⟩
